import Mathlib

/-!
Verification of the numeric and state-machine logic of the pyrolysis
simulator component (`src/components/PyrolysisSimulator.tsx`).

JavaScript numbers are modelled as exact rationals (`ℚ`); integer-valued
state such as the stage index and sorting counters is modelled as `ℕ`/`ℤ`.
-/

namespace PyrolysisSimulator

/-- Models `biomassRatio = 100 - plasticRatio` (line 35 of the component). -/
def biomassRatio (plasticRatio : ℚ) : ℚ := 100 - plasticRatio

/-- Models `getProductProbabilities` (lines 42-48): a weighted average of the
plastic and biomass product distributions, returning `(oilProb, gasProb)`. -/
def getProductProbabilities (plasticRatio : ℚ) : ℚ × ℚ :=
  let pFrac := plasticRatio / 100
  let bFrac := biomassRatio plasticRatio / 100
  let oilProb := pFrac * 0.65 + bFrac * 0.25
  let gasProb := pFrac * 0.25 + bFrac * 0.35
  (oilProb, gasProb)

/-- Models `baseBiochar` from `calculateYields` (line 167): the char share of the
feedstock blend. -/
def baseBiochar (plasticRatio : ℚ) : ℚ :=
  (plasticRatio / 100) * 0.10 + (biomassRatio plasticRatio / 100) * 0.40

/-- Models `handlePlasticChange` (lines 37-40).  The `parseInt(val.toString())`
result is modelled as `Option ℤ` (`none` for `NaN`); `|| 0` maps `NaN`
to `0`, and the result is clamped by `Math.max(0, Math.min(100, ·))`. -/
def handlePlasticChange (parsed : Option ℤ) : ℤ :=
  max 0 (min 100 (parsed.getD 0))

/-- One tick of the cooling-stage temperature update (lines 129-134):
`newTemp = prev - coolingPower * 1.5 + 2`, clamped into `[100, 900]` by
`Math.max(100, Math.min(900, newTemp))`. -/
def coolTick (coolingPower gasTemp : ℚ) : ℚ :=
  let heatLoss := coolingPower * 1.5
  let naturalHeat := 2
  let newTemp := gasTemp - heatLoss + naturalHeat
  max 100 (min 900 newTemp)

/-- The initial heat grid (line 14): a 10×10 grid of zeros, also restored by
`resetGame` (line 295). -/
def initialHeatGrid : List (List ℚ) := List.replicate 10 (List.replicate 10 0)

/-- Reading cell `(r, c)` of the grid (out-of-range reads default to 0;
all reads in the component are in range). -/
def cell (g : List (List ℚ)) (r c : ℕ) : ℚ := (g.getD r []).getD c 0

/-- The grid mutation inside `handleCellInteraction` (lines 206-210):
copy the grid and set `newGrid[row][col] = Math.min(100, newGrid[row][col] + 50)`. -/
def heatGridUpdate (g : List (List ℚ)) (row col : ℕ) : List (List ℚ) :=
  g.set row ((g.getD row []).set col (min 100 ((g.getD row []).getD col 0 + 50)))

/-- Models `handleCellInteraction` (lines 204-211): a no-op unless `stage === 2`. -/
def handleCellInteraction (stage row col : ℕ) (g : List (List ℚ)) : List (List ℚ) :=
  if stage ≠ 2 then g else heatGridUpdate g row col

/-- The grid states reachable through the grid operations of the component:
initialization (line 14), `handleCellInteraction` at any stage, and
`resetGame` (line 295). -/
inductive HeatGridReachable : List (List ℚ) → Prop
  | init : HeatGridReachable initialHeatGrid
  | interact (stage row col : ℕ) (g : List (List ℚ)) :
      HeatGridReachable g → HeatGridReachable (handleCellInteraction stage row col g)
  | reset (g : List (List ℚ)) : HeatGridReachable g → HeatGridReachable initialHeatGrid

/-- The three pyrolysis product types used by the sorting minigame. -/
inductive ProductType
  | liquidFuel
  | syngas
  | biochar
deriving DecidableEq

/-- A spawned product token (`SpawnedProduct` interface, lines 4-9). -/
structure SpawnedProduct where
  id : ℕ
  spawnedType : ProductType
  x : ℚ
  spawnTime : ℕ
deriving DecidableEq

/-- The `sortingProgress` record (line 22): per-bin sorted counts. -/
structure SortingProgress where
  biochar : ℕ
  syngas : ℕ
  liquidFuel : ℕ
deriving DecidableEq

/-- Reading the bin count named by a product type (`prev[binType]`). -/
def binCount (pr : SortingProgress) : ProductType → ℕ
  | .biochar => pr.biochar
  | .syngas => pr.syngas
  | .liquidFuel => pr.liquidFuel

/-- The update `{ ...prev, [binType]: prev[binType] + 1 }` (line 97). -/
def bumpBin (pr : SortingProgress) : ProductType → SortingProgress
  | .biochar => { pr with biochar := pr.biochar + 1 }
  | .syngas => { pr with syngas := pr.syngas + 1 }
  | .liquidFuel => { pr with liquidFuel := pr.liquidFuel + 1 }

/-- The sorting-stage state touched by `handleDrop`: `sortingProgress`,
`losses`, and `spawnedProducts`. -/
structure SortState where
  progress : SortingProgress
  losses : ℕ
  spawned : List SpawnedProduct

/-- Models `handleDrop` (lines 95-102): a matching drop bumps the bin, a mismatch
bumps `losses`, and either way the product with the given id is filtered
out of `spawnedProducts`. -/
def handleDrop (binType productType : ProductType) (productId : ℕ) (st : SortState) : SortState :=
  { progress := if productType = binType then bumpBin st.progress binType else st.progress
    losses := if productType = binType then st.losses else st.losses + 1
    spawned := st.spawned.filter (fun p => p.id ≠ productId) }

/-- Models `totalSorted` (lines 89 and 312). -/
def totalSorted (pr : SortingProgress) : ℕ := pr.biochar + pr.syngas + pr.liquidFuel

/-- The sorting-minigame state: `sortingProgress`/`losses`/`spawnedProducts`
(as `SortState`), `totalSpawned` (line 27), `spawnIdRef` (line 29) and
`sortingComplete` (line 23). -/
structure SortGame where
  sortState : SortState
  totalSpawned : ℕ
  nextId : ℕ
  sortingComplete : Bool

/-- The completion effect (lines 88-93): after each relevant state change,
set `sortingComplete` once `totalSorted + losses >= 15 && totalSpawned >= 15`. -/
def checkComplete (gme : SortGame) : SortGame :=
  if 15 ≤ totalSorted gme.sortState.progress + gme.sortState.losses ∧ 15 ≤ gme.totalSpawned
  then { gme with sortingComplete := true }
  else gme

/-- One spawn-interval tick (lines 72-81): if fewer than 15 products have
spawned, append a fresh product (id from `spawnIdRef.current++`) and
increment `totalSpawned`; otherwise do nothing. -/
def spawnTick (ty : ProductType) (x : ℚ) (time : ℕ) (gme : SortGame) : SortGame :=
  if 15 ≤ gme.totalSpawned then gme
  else
    { gme with
      sortState :=
        { gme.sortState with
          spawned := gme.sortState.spawned ++ [⟨gme.nextId, ty, x, time⟩] }
      totalSpawned := gme.totalSpawned + 1
      nextId := gme.nextId + 1 }

/-- The initial sorting-stage state (lines 22-29, also `resetGame`). -/
def initialSortGame : SortGame := ⟨⟨⟨0, 0, 0⟩, 0, []⟩, 0, 0, false⟩

/-- The sorting-stage states reachable from initialization via spawn ticks
(which the spawn effect only runs while `sortingComplete` is false, line 69)
and via `handleDrop` calls whose product id is currently spawned, each
followed by the completion effect. -/
inductive SortReachable : SortGame → Prop
  | init : SortReachable initialSortGame
  | spawn (ty : ProductType) (x : ℚ) (time : ℕ) (g : SortGame) :
      SortReachable g → g.sortingComplete = false →
      SortReachable (checkComplete (spawnTick ty x time g))
  | drop (b p : ProductType) (i : ℕ) (g : SortGame) :
      SortReachable g → (∃ pr ∈ g.sortState.spawned, pr.id = i) →
      SortReachable (checkComplete { g with sortState := handleDrop b p i g.sortState })

/-- The UI events that call `setStage`: the five stage-advance buttons and
the `resetGame` button on the results screen. -/
inductive StageEvent
  | startMission
  | startProcess
  | proceedToSorting
  | proceedToCooling
  | viewResults
  | tryDifferentInputs

/-- The stage transitions reachable through the UI handlers.  Each advance
button only renders on its own stage; the sorting, cooling and results
buttons are additionally disabled until `completeness >= 70` (line 677),
`sortingComplete` (line 848), and `coolingTime >= 15` (line 1137)
respectively, modelled by the three guard booleans.  `resetGame`
(lines 292-310) is only offered on the results stage. -/
def stageStep (s : ℕ) (e : StageEvent) (heatReady sortingDone coolingDone : Bool) : Option ℕ :=
  match s, e with
  | 0, .startMission => some 1
  | 1, .startProcess => some 2
  | 2, .proceedToSorting => if heatReady then some 3 else none
  | 3, .proceedToCooling => if sortingDone then some 4 else none
  | 4, .viewResults => if coolingDone then some 5 else none
  | 5, .tryDifferentInputs => some 0
  | _, _ => none

/-- Models `baseLiquid` (line 150, also line 165 of `calculateYields`). -/
def baseLiquid (plasticRatio : ℚ) : ℚ :=
  (plasticRatio / 100) * 0.65 + (biomassRatio plasticRatio / 100) * 0.25

/-- Models `condensationEfficiency` (line 151):
`Math.max(0, 1 - Math.abs(gasTemp - 350) / 400)`. -/
def condensationEfficiency (gasTemp : ℚ) : ℚ := max 0 (1 - |gasTemp - 350| / 400)

/-- One cooling-stage fuel update (lines 152-153):
`setCondensedFuel(prev => Math.min(prev + fuelIncrement, baseLiquid * 100))`
with `fuelIncrement = baseLiquid * condensationEfficiency * 0.8`. -/
def condensedFuelTick (plasticRatio gasTemp prev : ℚ) : ℚ :=
  min (prev + baseLiquid plasticRatio * condensationEfficiency gasTemp * 0.8)
    (baseLiquid plasticRatio * 100)

/-- The condensed fuel after a sequence of ticks with the given gas
temperatures, starting from the initial `condensedFuel = 0` (line 20). -/
def condensedFuelRun (plasticRatio : ℚ) (temps : List ℚ) : ℚ :=
  temps.foldl (fun prev t => condensedFuelTick plasticRatio t prev) 0

/-- Models `heatGrid.flat()` (line 105). -/
def flatGrid (g : List (List ℚ)) : List ℚ := g.flatten

/-- Models `totalHeat` (line 106): `flatGrid.reduce((sum, val) => sum + val, 0)`. -/
def totalHeat (g : List (List ℚ)) : ℚ := (flatGrid g).foldl (fun sum val => sum + val) 0

/-- Models `avgHeat` (line 107): `totalHeat / 100`. -/
def avgHeat (g : List (List ℚ)) : ℚ := totalHeat g / 100

/-- Models `variance` (line 108):
`flatGrid.reduce((sum, val) => sum + Math.pow(val - avgHeat, 2), 0) / 100`. -/
def heatVariance (g : List (List ℚ)) : ℚ :=
  (flatGrid g).foldl (fun sum val => sum + (val - avgHeat g) ^ 2) 0 / 100

/-- Models `stdDev` (line 109): `Math.sqrt(variance)`. -/
noncomputable def stdDev (g : List (List ℚ)) : ℝ := Real.sqrt ((heatVariance g : ℚ) : ℝ)

/-- Models `uniformity` (line 110): `Math.max(0, 100 - stdDev)`. -/
noncomputable def uniformity (g : List (List ℚ)) : ℝ := max 0 (100 - stdDev g)

end PyrolysisSimulator

namespace PyrolysisSimulator

theorem cell_eq_getElem? (g : List (List ℚ)) (r c : ℕ) :
    cell g r c = (((g[r]?).getD [])[c]?).getD 0 := by
  simp [cell]

theorem cell_heatGridUpdate_self (g : List (List ℚ)) (row col : ℕ)
    (hrow : row < g.length) (hcol : col < (g.getD row []).length) :
    cell (heatGridUpdate g row col) row col = min 100 (cell g row col + 50) := by
  rw [cell_eq_getElem?, heatGridUpdate, List.getElem?_set_self hrow]
  rw [Option.getD_some, List.getElem?_set_self hcol, Option.getD_some]
  simp [cell]

theorem cell_heatGridUpdate_other (g : List (List ℚ)) (row col r c : ℕ)
    (hne : ¬(r = row ∧ c = col)) :
    cell (heatGridUpdate g row col) r c = cell g r c := by
  rw [cell_eq_getElem?, cell_eq_getElem?, heatGridUpdate]
  by_cases hr : row = r
  · subst hr
    have hc : col ≠ c := fun h => hne ⟨rfl, h.symm⟩
    rw [List.getElem?_set]
    by_cases hlt : row < g.length
    · rw [if_pos rfl, if_pos hlt, Option.getD_some, List.getElem?_set_ne hc]
      rw [List.getD_eq_getElem?_getD]
    · rw [if_pos rfl, if_neg hlt,
        List.getElem?_eq_none (show g.length ≤ row from by omega)]
  · rw [List.getElem?_set_ne hr]

theorem cell_heatGridUpdate_cases (g : List (List ℚ)) (row col r c : ℕ) :
    cell (heatGridUpdate g row col) r c = cell g r c ∨
    cell (heatGridUpdate g row col) r c = min 100 (cell g row col + 50) := by
  by_cases hne : r = row ∧ c = col
  · obtain ⟨hr, hc⟩ := hne
    subst hr; subst hc
    by_cases hrow : r < g.length
    · by_cases hcol : c < (g.getD r []).length
      · exact Or.inr (cell_heatGridUpdate_self g r c hrow hcol)
      · left
        rw [cell_eq_getElem?, cell_eq_getElem?, heatGridUpdate,
          List.getElem?_set_self hrow, Option.getD_some,
          List.set_eq_of_length_le (by omega), List.getD_eq_getElem?_getD]
    · left
      rw [cell_eq_getElem?, cell_eq_getElem?, heatGridUpdate,
        List.set_eq_of_length_le (by omega)]
  · exact Or.inl (cell_heatGridUpdate_other g row col r c hne)

theorem row_length_of_wf (g : List (List ℚ)) (row : ℕ)
    (hg : g.length = 10) (hrows : ∀ r ∈ g, r.length = 10) (hrow : row < 10) :
    (g.getD row []).length = 10 := by
  have hlt : row < g.length := by omega
  have hmem : g.getD row [] ∈ g := by
    rw [List.getD_eq_getElem?_getD, List.getElem?_eq_getElem hlt, Option.getD_some]
    exact List.getElem_mem hlt
  exact hrows _ hmem

/-- C7: for `row, col` in `[0,9]` on a well-formed 10×10 grid,
`handleCellInteraction` at stage 2 sets only cell `(row, col)` to
`min(100, old + 50)` and leaves the other 99 cells unchanged; at any other
stage the grid is returned unchanged. -/
theorem handleCellInteraction_spec (stage row col : ℕ) (g : List (List ℚ))
    (hg : g.length = 10) (hrows : ∀ r ∈ g, r.length = 10)
    (hrow : row < 10) (hcol : col < 10) :
    (stage = 2 →
      cell (handleCellInteraction stage row col g) row col = min 100 (cell g row col + 50) ∧
      (∀ r c : ℕ, r < 10 → c < 10 → ¬(r = row ∧ c = col) →
        cell (handleCellInteraction stage row col g) r c = cell g r c)) ∧
    (stage ≠ 2 → handleCellInteraction stage row col g = g) := by
  constructor
  · intro hstage
    have hupd : handleCellInteraction stage row col g = heatGridUpdate g row col := by
      simp [handleCellInteraction, hstage]
    rw [hupd]
    constructor
    · exact cell_heatGridUpdate_self g row col (by omega)
        (by rw [row_length_of_wf g row hg hrows hrow]; omega)
    · intro r c _ _ hne
      exact cell_heatGridUpdate_other g row col r c hne
  · intro hstage
    simp [handleCellInteraction, hstage]

/-- Witness for C7: on the initial grid, heating cell (2,3) at stage 2 sets
it to 50 and leaves cell (0,0) at 0; at stage 4 the grid is unchanged. -/
theorem handleCellInteraction_spec_witness :
    cell (handleCellInteraction 2 2 3 initialHeatGrid) 2 3 = min 100 (cell initialHeatGrid 2 3 + 50) ∧
    cell (handleCellInteraction 2 2 3 initialHeatGrid) 0 0 = cell initialHeatGrid 0 0 ∧
    handleCellInteraction 4 2 3 initialHeatGrid = initialHeatGrid := by
  have h := handleCellInteraction_spec 2 2 3 initialHeatGrid (by decide)
    (by intro r hr; simp [initialHeatGrid] at hr; simp [hr]) (by decide) (by decide)
  have h4 := handleCellInteraction_spec 4 2 3 initialHeatGrid (by decide)
    (by intro r hr; simp [initialHeatGrid] at hr; simp [hr]) (by decide) (by decide)
  exact ⟨(h.1 rfl).1, (h.1 rfl).2 0 0 (by decide) (by decide) (by decide), h4.2 (by decide)⟩

theorem cell_initialHeatGrid (r c : ℕ) : cell initialHeatGrid r c = 0 := by
  rw [cell_eq_getElem?, initialHeatGrid, List.getElem?_replicate]
  by_cases hr : r < 10
  · rw [if_pos hr, Option.getD_some, List.getElem?_replicate]
    by_cases hc : c < 10
    · rw [if_pos hc, Option.getD_some]
    · rw [if_neg hc, Option.getD_none]
  · rw [if_neg hr, Option.getD_none]
    simp

/-- C8: every cell of every reachable heat grid lies in `[0, 100]`: the grid
starts all zeros, `handleCellInteraction` only adds 50 capped at 100, and
`resetGame` restores all zeros. -/
theorem heatGrid_cells_in_range (g : List (List ℚ)) (hreach : HeatGridReachable g)
    (r c : ℕ) : 0 ≤ cell g r c ∧ cell g r c ≤ 100 := by
  induction hreach generalizing r c with
  | init => rw [cell_initialHeatGrid]; norm_num
  | interact stage row col g _ ih =>
      by_cases hstage : stage = 2
      · have hupd : handleCellInteraction stage row col g = heatGridUpdate g row col := by
          simp [handleCellInteraction, hstage]
        rw [hupd]
        rcases cell_heatGridUpdate_cases g row col r c with hsame | hnew
        · rw [hsame]; exact ih r c
        · rw [hnew]
          constructor
          · exact le_min (by norm_num) (by linarith [(ih row col).1])
          · exact min_le_left 100 _
      · have hupd : handleCellInteraction stage row col g = g := by
          simp [handleCellInteraction, hstage]
        rw [hupd]; exact ih r c
  | reset g _ _ => rw [cell_initialHeatGrid]; norm_num

/-- Witness for C8 at the initial grid and a heated successor. -/
theorem heatGrid_cells_in_range_witness :
    0 ≤ cell (handleCellInteraction 2 5 5 initialHeatGrid) 5 5 ∧
    cell (handleCellInteraction 2 5 5 initialHeatGrid) 5 5 ≤ 100 :=
  heatGrid_cells_in_range _
    (HeatGridReachable.interact 2 5 5 initialHeatGrid HeatGridReachable.init) 5 5

/-- C1: for plasticRatio in [0,100] the product probabilities are the stated
weighted averages, each lies in [0,1], their sum is at most 1, and together
with the char remainder `baseBiochar` they sum to exactly 1. -/
theorem getProductProbabilities_spec (p : ℚ) (hp0 : 0 ≤ p) (hp1 : p ≤ 100) :
    (getProductProbabilities p).1 = (p / 100) * 0.65 + ((100 - p) / 100) * 0.25 ∧
    (getProductProbabilities p).2 = (p / 100) * 0.25 + ((100 - p) / 100) * 0.35 ∧
    0 ≤ (getProductProbabilities p).1 ∧ (getProductProbabilities p).1 ≤ 1 ∧
    0 ≤ (getProductProbabilities p).2 ∧ (getProductProbabilities p).2 ≤ 1 ∧
    (getProductProbabilities p).1 + (getProductProbabilities p).2 ≤ 1 ∧
    1 - (getProductProbabilities p).1 - (getProductProbabilities p).2 = baseBiochar p ∧
    (getProductProbabilities p).1 + (getProductProbabilities p).2 + baseBiochar p = 1 := by
  simp only [getProductProbabilities, baseBiochar, biomassRatio]
  refine ⟨trivial, trivial, ?_, ?_, ?_, ?_, ?_, ?_, ?_⟩ <;> nlinarith

/-- Witness for C1 at `plasticRatio = 50`. -/
theorem getProductProbabilities_spec_witness :
    (getProductProbabilities 50).1 + (getProductProbabilities 50).2 + baseBiochar 50 = 1 :=
  (getProductProbabilities_spec 50 (by norm_num) (by norm_num)).2.2.2.2.2.2.2.2

/-- C3: whatever the parse result, `handlePlasticChange` produces an integer
in [0,100]; parses above 100 clamp to 100, parses below 0 clamp to 0, and a
failed parse (`NaN`) yields 0. -/
theorem handlePlasticChange_spec (parsed : Option ℤ) :
    0 ≤ handlePlasticChange parsed ∧ handlePlasticChange parsed ≤ 100 ∧
    (∀ v : ℤ, parsed = some v → 100 < v → handlePlasticChange parsed = 100) ∧
    (∀ v : ℤ, parsed = some v → v < 0 → handlePlasticChange parsed = 0) ∧
    (parsed = none → handlePlasticChange parsed = 0) := by
  refine ⟨?_, ?_, ?_, ?_, ?_⟩
  · exact le_max_left 0 _
  · simp only [handlePlasticChange]
    exact max_le (by norm_num) (min_le_left 100 _)
  · intro v hv hlt
    simp only [handlePlasticChange, hv, Option.getD_some]
    rw [min_eq_left (by omega)]
    exact max_eq_right (by norm_num)
  · intro v hv hlt
    simp only [handlePlasticChange, hv, Option.getD_some]
    rw [min_eq_right (by omega)]
    exact max_eq_left (by omega)
  · intro hv
    simp [handlePlasticChange, hv]

/-- Witness for C3: a parse of 250 clamps to 100 (and all bounds hold there). -/
theorem handlePlasticChange_spec_witness :
    handlePlasticChange (some 250) = 100 ∧ handlePlasticChange none = 0 :=
  ⟨(handlePlasticChange_spec (some 250)).2.2.1 250 rfl (by norm_num),
   (handlePlasticChange_spec none).2.2.2.2 rfl⟩

/-- Any single cooling tick lands in `[100, 900]`, whatever the inputs:
the clamp guarantees it. -/
theorem coolTick_mem_Icc (cp t : ℚ) : 100 ≤ coolTick cp t ∧ coolTick cp t ≤ 900 := by
  unfold coolTick
  constructor
  · exact le_max_left 100 _
  · exact max_le (by norm_num) (min_le_left 900 _)

/-- C4: during active cooling each tick follows the linear decay rule
`newTemp = clamp(prev - coolingPower * 1.5 + 2, 100, 900)` for every
`coolingPower` in `[0,100]` and every prior temperature, and consequently
the temperature stays in `[100, 900]` after any number of ticks from any
starting temperature already in that range (the initial value is 600). -/
theorem coolTick_clamp_iterate (cp t : ℚ) (_hcp0 : 0 ≤ cp) (_hcp1 : cp ≤ 100) :
    coolTick cp t = max 100 (min 900 (t - cp * 1.5 + 2)) ∧
    (100 ≤ t → t ≤ 900 → ∀ n : ℕ, 100 ≤ (coolTick cp)^[n] t ∧ (coolTick cp)^[n] t ≤ 900) := by
  refine ⟨rfl, fun h0 h1 n => ?_⟩
  induction n with
  | zero => exact ⟨h0, h1⟩
  | succ k _ =>
      rw [Function.iterate_succ_apply']
      exact coolTick_mem_Icc cp _

/-- Witness for C4: with coolingPower 50, starting from the initial 600°C,
three ticks stay within `[100, 900]`. -/
theorem coolTick_clamp_iterate_witness :
    100 ≤ (coolTick 50)^[3] 600 ∧ (coolTick 50)^[3] 600 ≤ 900 :=
  (coolTick_clamp_iterate 50 600 (by norm_num) (by norm_num)).2 (by norm_num) (by norm_num) 3

/-- C5: starting from a stage in {0,...,5}, every transition the UI handlers
can take lands in {0,...,5}, and it either advances the stage by exactly one
or is the `resetGame` transition from the results stage (5) back to 0. -/
theorem stageStep_spec (s sNext : ℕ) (e : StageEvent) (hr sd cd : Bool)
    (hs : s ≤ 5) (hstep : stageStep s e hr sd cd = some sNext) :
    sNext ≤ 5 ∧ (sNext = s + 1 ∨ (s = 5 ∧ sNext = 0)) := by
  interval_cases s <;> cases e <;>
    simp only [stageStep] at hstep <;>
    first
      | (cases hstep; omega)
      | (rcases hstep with ⟨⟩)
      | (split at hstep <;> cases hstep <;> omega)

/-- Witness for C5: pressing START MISSION on the landing stage moves to
stage 1. -/
theorem stageStep_spec_witness :
    (1 : ℕ) ≤ 5 ∧ ((1 : ℕ) = 0 + 1 ∨ ((0 : ℕ) = 5 ∧ (1 : ℕ) = 0)) :=
  stageStep_spec 0 1 StageEvent.startMission true true true (by norm_num) rfl

/-- C6: `handleDrop` with a matching product type bumps exactly that bin and
leaves `losses` alone; with a mismatched type it bumps `losses` and leaves
all three bins alone; and in both cases the product with the given id is
removed from `spawnedProducts` while every other product remains. -/
theorem handleDrop_spec (b t : ProductType) (i : ℕ) (st : SortState) :
    (t = b →
      binCount (handleDrop b t i st).progress b = binCount st.progress b + 1 ∧
      (∀ ty : ProductType, ty ≠ b →
        binCount (handleDrop b t i st).progress ty = binCount st.progress ty) ∧
      (handleDrop b t i st).losses = st.losses) ∧
    (t ≠ b →
      (∀ ty : ProductType, binCount (handleDrop b t i st).progress ty = binCount st.progress ty) ∧
      (handleDrop b t i st).losses = st.losses + 1) ∧
    (∀ p : SpawnedProduct, p ∈ (handleDrop b t i st).spawned ↔ p ∈ st.spawned ∧ p.id ≠ i) := by
  refine ⟨fun hmatch => ?_, fun hmiss => ?_, fun p => ?_⟩
  · subst hmatch
    refine ⟨?_, fun ty hty => ?_, ?_⟩
    · simp only [handleDrop, if_pos rfl]
      cases t <;> rfl
    · simp only [handleDrop, if_pos rfl]
      cases t <;> cases ty <;> first | rfl | exact absurd rfl hty
    · simp [handleDrop]
  · refine ⟨fun ty => ?_, ?_⟩
    · simp [handleDrop, hmiss]
    · simp [handleDrop, hmiss]
  · simp [handleDrop, List.mem_filter]

/-- Witness for C6: dropping the syngas product with id 7 into the syngas
bin bumps the syngas bin, keeps losses at 0, and removes the product while
the product with id 3 remains; dropping it into the biochar bin instead
counts a loss and changes no bin. -/
theorem handleDrop_spec_witness :
    binCount (handleDrop ProductType.syngas ProductType.syngas 7
        ⟨⟨0, 0, 0⟩, 0, [⟨7, ProductType.syngas, 1, 0⟩, ⟨3, ProductType.biochar, 2, 0⟩]⟩).progress
      ProductType.syngas = 1 ∧
    (handleDrop ProductType.syngas ProductType.syngas 7
        ⟨⟨0, 0, 0⟩, 0, [⟨7, ProductType.syngas, 1, 0⟩, ⟨3, ProductType.biochar, 2, 0⟩]⟩).losses = 0 ∧
    (⟨7, ProductType.syngas, 1, 0⟩ : SpawnedProduct) ∉
      (handleDrop ProductType.syngas ProductType.syngas 7
        ⟨⟨0, 0, 0⟩, 0, [⟨7, ProductType.syngas, 1, 0⟩, ⟨3, ProductType.biochar, 2, 0⟩]⟩).spawned ∧
    (⟨3, ProductType.biochar, 2, 0⟩ : SpawnedProduct) ∈
      (handleDrop ProductType.syngas ProductType.syngas 7
        ⟨⟨0, 0, 0⟩, 0, [⟨7, ProductType.syngas, 1, 0⟩, ⟨3, ProductType.biochar, 2, 0⟩]⟩).spawned ∧
    (handleDrop ProductType.biochar ProductType.syngas 7
        ⟨⟨0, 0, 0⟩, 0, [⟨7, ProductType.syngas, 1, 0⟩]⟩).losses = 1 ∧
    binCount (handleDrop ProductType.biochar ProductType.syngas 7
        ⟨⟨0, 0, 0⟩, 0, [⟨7, ProductType.syngas, 1, 0⟩]⟩).progress ProductType.biochar = 0 := by
  have h := handleDrop_spec ProductType.syngas ProductType.syngas 7
    ⟨⟨0, 0, 0⟩, 0, [⟨7, ProductType.syngas, 1, 0⟩, ⟨3, ProductType.biochar, 2, 0⟩]⟩
  have hm := handleDrop_spec ProductType.biochar ProductType.syngas 7
    ⟨⟨0, 0, 0⟩, 0, [⟨7, ProductType.syngas, 1, 0⟩]⟩
  refine ⟨(h.1 rfl).1, (h.1 rfl).2.2, ?_, ?_, (hm.2.1 (by decide)).2, (hm.2.1 (by decide)).1 _⟩
  · intro hmem
    exact ((h.2.2 _).1 hmem).2 rfl
  · exact (h.2.2 _).2 ⟨by decide, by decide⟩

theorem baseLiquid_nonneg (p : ℚ) (hp0 : 0 ≤ p) (hp1 : p ≤ 100) : 0 ≤ baseLiquid p := by
  unfold baseLiquid biomassRatio
  nlinarith

theorem condensationEfficiency_nonneg (t : ℚ) : 0 ≤ condensationEfficiency t :=
  le_max_left 0 _

theorem condensedFuelTick_le_cap (p t prev : ℚ) :
    condensedFuelTick p t prev ≤ baseLiquid p * 100 :=
  min_le_right _ _

theorem le_condensedFuelTick (p t prev : ℚ) (hp0 : 0 ≤ p) (hp1 : p ≤ 100)
    (hcap : prev ≤ baseLiquid p * 100) : prev ≤ condensedFuelTick p t prev := by
  refine le_min ?_ hcap
  have h1 := baseLiquid_nonneg p hp0 hp1
  have h2 := condensationEfficiency_nonneg t
  nlinarith

theorem condensedFuelRun_aux_le_cap (p : ℚ) (hp0 : 0 ≤ p) (hp1 : p ≤ 100)
    (temps : List ℚ) (init : ℚ) (hinit : init ≤ baseLiquid p * 100) :
    temps.foldl (fun prev t => condensedFuelTick p t prev) init ≤ baseLiquid p * 100 := by
  induction temps generalizing init with
  | nil => exact hinit
  | cons t ts ih => exact ih _ (condensedFuelTick_le_cap p t init)

/-- C10: along the cooling stage, for every plasticRatio in [0,100], every
sequence of gas temperatures in [100,900] and starting fuel 0, the condensed
fuel never exceeds `baseLiquid * 100` and is monotonically non-decreasing
across ticks: each tick adds a non-negative increment
`baseLiquid * condensationEfficiency * 0.8`, capped at `baseLiquid * 100`.
(The single-tick part also records monotonicity for any prior value below
the cap and any temperature, including those in [100,900].) -/
theorem condensedFuel_spec (p : ℚ) (hp0 : 0 ≤ p) (hp1 : p ≤ 100) :
    (∀ t prev : ℚ, 100 ≤ t → t ≤ 900 → prev ≤ baseLiquid p * 100 →
      prev ≤ condensedFuelTick p t prev ∧ condensedFuelTick p t prev ≤ baseLiquid p * 100) ∧
    (∀ temps : List ℚ, condensedFuelRun p temps ≤ baseLiquid p * 100 ∧
      ∀ t : ℚ, condensedFuelRun p temps ≤ condensedFuelRun p (temps ++ [t])) := by
  constructor
  · intro t prev _ _ hcap
    exact ⟨le_condensedFuelTick p t prev hp0 hp1 hcap, condensedFuelTick_le_cap p t prev⟩
  · intro temps
    have hcap : condensedFuelRun p temps ≤ baseLiquid p * 100 :=
      condensedFuelRun_aux_le_cap p hp0 hp1 temps 0
        (by nlinarith [baseLiquid_nonneg p hp0 hp1])
    refine ⟨hcap, fun t => ?_⟩
    have happ : condensedFuelRun p (temps ++ [t]) =
        condensedFuelTick p t (condensedFuelRun p temps) := by
      simp [condensedFuelRun, List.foldl_append]
    rw [happ]
    exact le_condensedFuelTick p t _ hp0 hp1 hcap

/-- Witness for C10 at plasticRatio 50 with two ticks at 600°C and 400°C. -/
theorem condensedFuel_spec_witness :
    condensedFuelRun 50 [600, 400] ≤ baseLiquid 50 * 100 ∧
    condensedFuelRun 50 [600, 400] ≤ condensedFuelRun 50 ([600, 400] ++ [350]) :=
  ⟨((condensedFuel_spec 50 (by norm_num) (by norm_num)).2 [600, 400]).1,
   ((condensedFuel_spec 50 (by norm_num) (by norm_num)).2 [600, 400]).2 350⟩

theorem foldl_add_map_sum (f : ℚ → ℚ) (l : List ℚ) (init : ℚ) :
    l.foldl (fun sum val => sum + f val) init = init + (l.map f).sum := by
  induction l generalizing init with
  | nil => simp
  | cons x xs ih =>
      rw [List.foldl_cons, ih, List.map_cons, List.sum_cons]
      ring

theorem totalHeat_eq_sum (g : List (List ℚ)) : totalHeat g = (flatGrid g).sum := by
  have h := foldl_add_map_sum (fun v => v) (flatGrid g) 0
  simpa [totalHeat] using h

theorem heatVariance_eq (g : List (List ℚ)) :
    heatVariance g = ((flatGrid g).map (fun v => (v - avgHeat g) ^ 2)).sum / 100 := by
  have h := foldl_add_map_sum (fun v => (v - avgHeat g) ^ 2) (flatGrid g) 0
  rw [heatVariance, h, zero_add]

theorem sum_sub_sq (l : List ℚ) (m : ℚ) :
    (l.map (fun v => (v - m) ^ 2)).sum =
      (l.map (fun v => v ^ 2)).sum - 2 * m * l.sum + (l.length : ℚ) * m ^ 2 := by
  induction l with
  | nil => simp
  | cons x xs ih =>
      rw [List.map_cons, List.sum_cons, List.map_cons, List.sum_cons, List.sum_cons, ih,
        List.length_cons]
      push_cast
      ring

theorem sum_sq_le (l : List ℚ) (h : ∀ x ∈ l, 0 ≤ x ∧ x ≤ 100) :
    (l.map (fun v => v ^ 2)).sum ≤ 100 * l.sum := by
  induction l with
  | nil => simp
  | cons x xs ih =>
      have hx := h x (List.mem_cons_self x xs)
      have hxs := ih (fun y hy => h y (List.mem_cons_of_mem x hy))
      rw [List.map_cons, List.sum_cons, List.sum_cons]
      nlinarith [hx.1, hx.2]

theorem sum_sq_nonneg (l : List ℚ) (m : ℚ) :
    0 ≤ (l.map (fun v => (v - m) ^ 2)).sum := by
  induction l with
  | nil => simp
  | cons x xs ih =>
      rw [List.map_cons, List.sum_cons]
      nlinarith [sq_nonneg (x - m)]

theorem heatVariance_bounds (g : List (List ℚ))
    (hlen : (flatGrid g).length = 100)
    (hmem : ∀ x ∈ flatGrid g, 0 ≤ x ∧ x ≤ 100) :
    0 ≤ heatVariance g ∧ heatVariance g ≤ 2500 := by
  have hsum : (flatGrid g).sum = 100 * avgHeat g := by
    rw [avgHeat, totalHeat_eq_sum]
    field_simp
  have hexp := sum_sub_sq (flatGrid g) (avgHeat g)
  have hq := sum_sq_le (flatGrid g) hmem
  have hnn := sum_sq_nonneg (flatGrid g) (avgHeat g)
  rw [heatVariance_eq]
  constructor
  · linarith
  · rw [hexp, hlen, hsum] at *
    nlinarith [sq_nonneg (avgHeat g - 50)]

/-- C2: for a heat grid of 100 cells each in [0,100], `averageHeat` is the
population mean of the cells and `uniformity` is 100 minus the population
standard deviation; the standard deviation is at most 50, so the
`Math.max(0, ...)` clamp never alters the result and `uniformity` always
lies in [50, 100]. -/
theorem calculateHeatMetrics_spec (g : List (List ℚ))
    (hlen : (flatGrid g).length = 100)
    (hmem : ∀ x ∈ flatGrid g, 0 ≤ x ∧ x ≤ 100) :
    avgHeat g = (flatGrid g).sum / ((flatGrid g).length : ℚ) ∧
    heatVariance g =
      ((flatGrid g).map (fun v => (v - avgHeat g) ^ 2)).sum / ((flatGrid g).length : ℚ) ∧
    stdDev g ≤ 50 ∧
    uniformity g = 100 - stdDev g ∧
    50 ≤ uniformity g ∧ uniformity g ≤ 100 := by
  have hvar := heatVariance_bounds g hlen hmem
  have hstd_le : stdDev g ≤ 50 := by
    rw [stdDev]
    rw [Real.sqrt_le_left (by norm_num : (0:ℝ) ≤ 50)]
    have : ((heatVariance g : ℚ) : ℝ) ≤ ((2500 : ℚ) : ℝ) := by
      exact_mod_cast hvar.2
    calc ((heatVariance g : ℚ) : ℝ) ≤ ((2500 : ℚ) : ℝ) := this
    _ = 50 ^ 2 := by norm_num
  have hstd_nn : 0 ≤ stdDev g := Real.sqrt_nonneg _
  have huni : uniformity g = 100 - stdDev g := by
    rw [uniformity]
    exact max_eq_right (by linarith)
  refine ⟨?_, ?_, hstd_le, huni, ?_, ?_⟩
  · rw [hlen, avgHeat, totalHeat_eq_sum]
    norm_num
  · rw [hlen, heatVariance_eq]
    norm_num
  · rw [huni]; linarith
  · rw [huni]; linarith

/-- Witness for C2 on the all-zero initial grid. -/
theorem calculateHeatMetrics_spec_witness :
    50 ≤ uniformity initialHeatGrid ∧ uniformity initialHeatGrid ≤ 100 := by
  have hflat : flatGrid initialHeatGrid = List.replicate 100 (0 : ℚ) := by rfl
  have hlen : (flatGrid initialHeatGrid).length = 100 := by rw [hflat]; simp
  have hmem : ∀ x ∈ flatGrid initialHeatGrid, 0 ≤ x ∧ x ≤ 100 := by
    intro x hx
    rw [hflat, List.mem_replicate] at hx
    rw [hx.2]
    norm_num
  exact ⟨(calculateHeatMetrics_spec initialHeatGrid hlen hmem).2.2.2.2.1,
    (calculateHeatMetrics_spec initialHeatGrid hlen hmem).2.2.2.2.2⟩

theorem checkComplete_sortState (g : SortGame) : (checkComplete g).sortState = g.sortState := by
  unfold checkComplete
  split <;> rfl

theorem checkComplete_totalSpawned (g : SortGame) :
    (checkComplete g).totalSpawned = g.totalSpawned := by
  unfold checkComplete
  split <;> rfl

theorem checkComplete_nextId (g : SortGame) : (checkComplete g).nextId = g.nextId := by
  unfold checkComplete
  split <;> rfl

theorem checkComplete_flag (g : SortGame)
    (hbase : g.sortingComplete = true →
      15 ≤ totalSorted g.sortState.progress + g.sortState.losses ∧ 15 ≤ g.totalSpawned) :
    (checkComplete g).sortingComplete = true ↔
      15 ≤ totalSorted g.sortState.progress + g.sortState.losses ∧ 15 ≤ g.totalSpawned := by
  unfold checkComplete
  by_cases h : 15 ≤ totalSorted g.sortState.progress + g.sortState.losses ∧ 15 ≤ g.totalSpawned
  · rw [if_pos h]
    exact ⟨fun _ => h, fun _ => rfl⟩
  · rw [if_neg h]
    exact ⟨hbase, fun hc => absurd hc h⟩

theorem totalSorted_handleDrop (b p : ProductType) (i : ℕ) (st : SortState) :
    totalSorted (handleDrop b p i st).progress + (handleDrop b p i st).losses =
      totalSorted st.progress + st.losses + 1 := by
  by_cases h : p = b
  · subst h
    simp only [handleDrop, if_pos rfl]
    cases p <;> simp [totalSorted, bumpBin] <;> omega
  · simp only [handleDrop, if_neg h]
    omega

theorem filter_id_length_of_mem (l : List SpawnedProduct) (i : ℕ)
    (hnd : (l.map SpawnedProduct.id).Nodup) (hex : ∃ pr ∈ l, pr.id = i) :
    (l.filter (fun p => p.id ≠ i)).length + 1 = l.length := by
  induction l with
  | nil => simp at hex
  | cons a l ih =>
      rw [List.map_cons, List.nodup_cons] at hnd
      by_cases hai : a.id = i
      · rw [List.filter_cons_of_neg (by simp [hai]), List.length_cons]
        have hall : l.filter (fun p => p.id ≠ i) = l := by
          refine List.filter_eq_self.mpr fun p hp => ?_
          simp only [ne_eq, decide_eq_true_eq]
          intro hpi
          refine absurd ?_ hnd.1
          rw [hai, ← hpi]
          exact List.mem_map_of_mem SpawnedProduct.id hp
        rw [hall]
      · rw [List.filter_cons_of_pos (by simp [hai]), List.length_cons, List.length_cons]
        rcases hex with ⟨pr, hpr, hpri⟩
        rcases List.mem_cons.mp hpr with hpa | hpl
        · exact absurd (hpa ▸ hpri) hai
        · rw [ih hnd.2 ⟨pr, hpl, hpri⟩]

theorem sortGame_inv (g : SortGame) (h : SortReachable g) :
    totalSorted g.sortState.progress + g.sortState.losses + g.sortState.spawned.length
        = g.totalSpawned ∧
    g.totalSpawned ≤ 15 ∧
    (∀ pr ∈ g.sortState.spawned, pr.id < g.nextId) ∧
    (g.sortState.spawned.map SpawnedProduct.id).Nodup ∧
    (g.sortingComplete = true ↔
      15 ≤ totalSorted g.sortState.progress + g.sortState.losses ∧ 15 ≤ g.totalSpawned) := by
  induction h with
  | init =>
      refine ⟨rfl, by norm_num [initialSortGame], ?_, List.nodup_nil, ?_⟩
      · intro pr hpr
        simp [initialSortGame] at hpr
      · simp [initialSortGame, totalSorted]
  | spawn ty x time g _ hflag ih =>
      obtain ⟨ih1, ih2, ih3, ih4, ih5⟩ := ih
      by_cases hsp : 15 ≤ g.totalSpawned
      · have hst : spawnTick ty x time g = g := by
          unfold spawnTick
          rw [if_pos hsp]
        rw [hst, checkComplete_sortState, checkComplete_totalSpawned, checkComplete_nextId]
        refine ⟨ih1, ih2, ih3, ih4, ?_⟩
        exact checkComplete_flag g (fun hc => ih5.mp hc)
      · have hst : spawnTick ty x time g =
            { g with
              sortState :=
                { g.sortState with
                  spawned := g.sortState.spawned ++ [⟨g.nextId, ty, x, time⟩] }
              totalSpawned := g.totalSpawned + 1
              nextId := g.nextId + 1 } := by
          unfold spawnTick
          rw [if_neg hsp]
        rw [hst, checkComplete_sortState, checkComplete_totalSpawned, checkComplete_nextId]
        refine ⟨?_, ?_, ?_, ?_, ?_⟩
        · show totalSorted g.sortState.progress + g.sortState.losses +
              (g.sortState.spawned ++ [(⟨g.nextId, ty, x, time⟩ : SpawnedProduct)]).length =
                g.totalSpawned + 1
          rw [List.length_append, List.length_cons, List.length_nil]
          omega
        · show g.totalSpawned + 1 ≤ 15
          omega
        · show ∀ pr ∈ g.sortState.spawned ++ [(⟨g.nextId, ty, x, time⟩ : SpawnedProduct)],
              pr.id < g.nextId + 1
          intro pr hpr
          rcases List.mem_append.mp hpr with hold | hnew
          · have := ih3 pr hold
            omega
          · simp only [List.mem_singleton] at hnew
            rw [hnew]
            exact Nat.lt_succ_self g.nextId
        · show ((g.sortState.spawned ++
              [(⟨g.nextId, ty, x, time⟩ : SpawnedProduct)]).map SpawnedProduct.id).Nodup
          rw [List.map_append]
          refine List.Nodup.append ih4 (by simp) ?_
          intro a ha
          simp only [List.map_cons, List.map_nil, List.mem_singleton]
          intro hae
          rcases List.mem_map.mp ha with ⟨pr, hpr, hpra⟩
          have := ih3 pr hpr
          omega
        · refine checkComplete_flag _ (fun hc => ?_)
          have hgc : g.sortingComplete = true := hc
          rw [hflag] at hgc
          exact absurd hgc Bool.false_ne_true
  | drop b p i g _ hex ih =>
      obtain ⟨ih1, ih2, ih3, ih4, ih5⟩ := ih
      set gd : SortGame := { g with sortState := handleDrop b p i g.sortState } with hgd
      have hdrop := totalSorted_handleDrop b p i g.sortState
      have hspawned : gd.sortState.spawned =
          g.sortState.spawned.filter (fun q => q.id ≠ i) := rfl
      have hlen := filter_id_length_of_mem g.sortState.spawned i ih4 hex
      rw [checkComplete_sortState, checkComplete_totalSpawned, checkComplete_nextId]
      have hgdts : gd.totalSpawned = g.totalSpawned := rfl
      have hgdnext : gd.nextId = g.nextId := rfl
      refine ⟨?_, ?_, ?_, ?_, ?_⟩
      · rw [hspawned, hgdts]
        have : totalSorted gd.sortState.progress + gd.sortState.losses =
            totalSorted g.sortState.progress + g.sortState.losses + 1 := hdrop
        omega
      · rw [hgdts]; exact ih2
      · intro pr hpr
        rw [hspawned] at hpr
        rw [hgdnext]
        exact ih3 pr (List.mem_of_mem_filter hpr)
      · rw [hspawned]
        exact ih4.sublist (List.Sublist.map SpawnedProduct.id (List.filter_sublist _))
      · refine checkComplete_flag gd (fun hc => ?_)
        have hcb : gd.sortingComplete = g.sortingComplete := rfl
        rw [hcb] at hc
        have := ih5.mp hc
        rw [hgdts]
        constructor
        · rw [hdrop]; omega
        · omega

/-- C9: in the sorting stage, as long as only currently spawned products are
dropped (each product can only be dropped once since the drop removes it),
`totalSorted + losses <= totalSpawned <= 15` holds in every reachable state,
and `sortingComplete` is true exactly when the sorted total plus losses is
at least 15 with `totalSpawned` at least 15. -/
theorem sorting_progress_invariant (g : SortGame) (h : SortReachable g) :
    totalSorted g.sortState.progress + g.sortState.losses ≤ g.totalSpawned ∧
    g.totalSpawned ≤ 15 ∧
    (g.sortingComplete = true ↔
      15 ≤ totalSorted g.sortState.progress + g.sortState.losses ∧ 15 ≤ g.totalSpawned) := by
  obtain ⟨h1, h2, _, _, h5⟩ := sortGame_inv g h
  exact ⟨by omega, h2, h5⟩

/-- Witness for C9: the invariant holds in the initial sorting state and
after one spawn tick. -/
theorem sorting_progress_invariant_witness :
    (checkComplete (spawnTick ProductType.liquidFuel 20 0 initialSortGame)).totalSpawned ≤ 15 ∧
    (initialSortGame.sortingComplete = true ↔
      15 ≤ totalSorted initialSortGame.sortState.progress + initialSortGame.sortState.losses ∧
      15 ≤ initialSortGame.totalSpawned) :=
  ⟨(sorting_progress_invariant _
      (SortReachable.spawn ProductType.liquidFuel 20 0 initialSortGame
        SortReachable.init rfl)).2.1,
   (sorting_progress_invariant initialSortGame SortReachable.init).2.2⟩

end PyrolysisSimulator
